import Mathlib

/-!
Verification development for the `errors` package (an error-annotation
library).  The embedding below translates the package's core data model and
operations:

* `src/basic.go` — the `Basic` annotatable error node and its methods
  (`StackTrace`, `SetKeyVal`, `SetData`, `GetValue`, `GetAllData`,
  `addMyData`, `isReservedKey`);
* `src/unnamed/part_000` — the constructors (`New`, `Wrap`, `WrapD`,
  `doWrap`, `WithMessage`, `WithMessageD`, `WithStack`, `WithData`), the
  stack-merge heuristic `useAbbreviatedStack`, and `Cause`.

Modelling conventions, stated once here:

* Go errors relevant to the claims form three shapes: a `*Basic` node, a
  plain external error (no `Unwrap`), and the result of `errors.Join`
  (Go ≥ 1.20), whose `Unwrap() []error` yields the joined members.  These
  are the three constructors of `Err`.
* The Go `Basic.data` map (`map[string]interface{}`) stores the message,
  the stack and the abbreviated stack under the reserved keys `_msg`,
  `_stack`, `_abbrstk`, next to the caller's own key/value pairs.  The spec
  (§3, Invariants) states that representing these as "four literal fields
  plus a plain data map ... is behaviorally equivalent"; `NodeData` uses
  that equivalent field representation: `msg`, `stk`, `abbrstk` mirror the
  three reserved entries and `user` holds the non-reserved entries.
* Panics (index out of range on `key[0]` for the empty key, and the
  negative slice index in `useAbbreviatedStack`) are modelled by returning
  `none` from an `Option`-valued function.
* `errors.As(err, &target)` with targets `*Basic`, `DataError` and
  `interface{ StackTrace() StackTrace }` matches, among the modelled
  shapes, exactly the `Basic` nodes (a leaf implements none of them and
  `errors.Join`'s type implements none of them); Go ≥ 1.20 `As` walks the
  error tree depth-first, descending through `Unwrap() error` and through
  each member of `Unwrap() []error` in order.  This traversal is `asBasic`.
* Modelled from the spec: the stack type (`stack`, `Frame`, `callers`,
  `(*stack).StackTrace()`) is repository code not present under `src/`.
  Per spec §3, a stack snapshot is "an ordered sequence of opaque frame
  tokens" with index 0 the capture site; frames compare by identity.  A
  stack is therefore a `List Nat` of frame identifiers, `(*stack).StackTrace()`
  is the identity on that sequence, and `callers` is modelled by passing
  the captured sequence as an explicit argument to the constructors.
* Values stored in the data map (`interface{}`) are a type parameter `V`;
  the package never inspects user values.
-/

namespace LibErrors

/-- Key/value pairs (`KVPairs` in the source): a string-keyed map, modelled
as a function into `Option`. -/
abbrev KVPairs (V : Type) := String → Option V

/-- `isReservedKey` from `src/basic.go`: `key[0] == keyPrefix` where
`keyPrefix = '_'`.  Indexing `key[0]` on an empty string panics
(index out of range); the panic is modelled as `none`. -/
def isReservedKey (key : String) : Option Bool :=
  match key.data with
  | [] => none
  | c :: _ => some (c = '_')

/-- The contents of a `Basic` node's `data` map, in the field representation
the spec declares behaviorally equivalent to the single map: `msg`, `stk`,
`abbrstk` mirror the reserved entries `_msg`, `_stack`, `_abbrstk`, and
`user` holds the non-reserved entries. -/
structure NodeData (V : Type) where
  msg : Option String
  stk : Option (List Nat)
  abbrstk : Option (List Nat)
  user : KVPairs V

/-- The error shapes relevant to the claims: a plain external error
(no `Unwrap`), a `*Basic` node (embedded cause + data map), and the result
of `errors.Join` (Go ≥ 1.20), exposing its members via `Unwrap() []error`. -/
inductive Err (V : Type) where
  | leaf (msg : String)
  | basic (data : NodeData V) (cause : Option (Err V))
  | join (errs : List (Err V))

/-- The empty `KVPairs` map (`make(KVPairs)`). -/
def emptyKV {V : Type} : KVPairs V := fun _ => none

/-- Go's `for k, v := range t { d[k] = v }`: merge `t` into `d`, entries of
`t` winning on collision. -/
def mergeKV {V : Type} (d t : KVPairs V) : KVPairs V :=
  fun k =>
    match t k with
    | some v => some v
    | none => d k

mutual

/-- `errors.As(err, &target)` for the targets `*Basic` / `DataError` /
`interface{ StackTrace() StackTrace }`: walk the error tree depth-first
(self, then single `Unwrap`, then each `Unwrap() []error` member in order)
and return the first `Basic` node found.  Among the modelled shapes only
`Basic` nodes satisfy any of those targets. -/
def asBasic {V : Type} : Err V → Option (Err V)
  | .leaf _ => none
  | .basic d c => some (.basic d c)
  | .join es => asBasicList es

/-- `asBasic` over the members of a join, in order, first hit wins. -/
def asBasicList {V : Type} : List (Err V) → Option (Err V)
  | [] => none
  | e :: rest =>
    match asBasic e with
    | some b => some b
    | none => asBasicList rest

end

mutual

theorem asBasic_sizeOf {V : Type} (e b : Err V) (h : asBasic e = some b) :
    sizeOf b ≤ sizeOf e := by
  match e with
  | .leaf m => simp [asBasic] at h
  | .basic d c =>
    simp [asBasic] at h
    subst h
    exact Nat.le_refl _
  | .join es =>
    have h2 : asBasicList es = some b := by simpa [asBasic] using h
    have h3 := asBasicList_sizeOf es b h2
    simp only [Err.join.sizeOf_spec]
    omega

theorem asBasicList_sizeOf {V : Type} (l : List (Err V)) (b : Err V)
    (h : asBasicList l = some b) : sizeOf b ≤ sizeOf l := by
  match l with
  | [] => simp [asBasicList] at h
  | e :: rest =>
    rw [asBasicList] at h
    cases h2 : asBasic e with
    | some b2 =>
      rw [h2] at h
      have h3 := asBasic_sizeOf e b2 h2
      simp only [List.cons.sizeOf_spec]
      cases h
      omega
    | none =>
      rw [h2] at h
      have h3 := asBasicList_sizeOf rest b h
      simp only [List.cons.sizeOf_spec]
      omega

end

/-- `(*Basic).addMyData` from `src/basic.go`: copy every non-reserved entry
of the node's data map into `d`.  The loop calls `isReservedKey` on each
key present, so a data map containing the empty-string key panics (`none`).
The reserved entries `_msg` / `_stack` / `_abbrstk` (fields here) are
skipped by the reserved-key test, so only `user` entries are copied. -/
def addMyData {V : Type} (nd : NodeData V) (d : KVPairs V) : Option (KVPairs V) :=
  if (nd.user "").isSome then none
  else
    some (fun k =>
      match nd.user k with
      | some v => if isReservedKey k = some false then some v else d k
      | none => d k)

/-- `(*Basic).SetKeyVal` from `src/basic.go`.  Returns the error message of
the `Errorf` rejection (`some msg`) or `none` for success, paired with the
node data after the call; the whole result is `none` when `isReservedKey`
panics on the empty key. -/
def setKeyVal {V : Type} (nd : NodeData V) (k : String) (v : V) :
    Option (Option String × NodeData V) :=
  match isReservedKey k with
  | none => none
  | some true =>
    some (some "cannot use a reserved key (string starting with '_')", nd)
  | some false =>
    some (none, { nd with user := fun k2 => if k2 = k then some v else nd.user k2 })

/-- `(*Basic).SetData` from `src/basic.go`: copy every pair of `d` whose key
is not reserved into the node's data map.  `isReservedKey` runs on every key
of `d`, so a map containing the empty-string key panics (`none`).  Go map
iteration order is unspecified, but map keys are unique so the resulting
map does not depend on it. -/
def setData {V : Type} (nd : NodeData V) (d : KVPairs V) : Option (NodeData V) :=
  if (d "").isSome then none
  else
    some { nd with
            user := fun k =>
              match d k with
              | some v => if isReservedKey k = some false then some v else nd.user k
              | none => nd.user k }

mutual

/-- `(*Basic).GetValue` from `src/basic.go` (a method of `Basic`; the
`leaf` / `join` arms are never taken by the claims).  Reserved keys return
not-found immediately (`some none`); the empty key panics (`none`).  On a
miss the search descends: through a single-`Unwrap` cause it queries the
first `DataError` found by `As` (the cause itself when it is a `Basic`);
through a join it tries each member's first `DataError` in order, first
key hit winning. -/
def getValue {V : Type} : Err V → String → Option (Option V)
  | .leaf _, _ => some none
  | .join _, _ => some none
  | .basic data cause, key =>
    match isReservedKey key with
    | none => none
    | some true => some none
    | some false =>
      match data.user key with
      | some v => some (some v)
      | none =>
        match cause with
        | none => some none
        | some c =>
          match c with
          | .basic d cc => getValue (.basic d cc) key
          | .leaf _ => some none
          | .join es => getValueJoin es key
termination_by e _ => sizeOf e
decreasing_by
  all_goals
    simp only [Err.basic.sizeOf_spec, Option.some.sizeOf_spec, Err.join.sizeOf_spec]
    omega

/-- The `Unwrap() []error` arm of `GetValue`: for each member in order,
`As` locates its first `DataError`; the first member whose query finds the
key wins. -/
def getValueJoin {V : Type} : List (Err V) → String → Option (Option V)
  | [], _ => some none
  | e :: rest, key =>
    match h : asBasic e with
    | none => getValueJoin rest key
    | some b =>
      match getValue b key with
      | none => none
      | some (some v) => some (some v)
      | some none => getValueJoin rest key
termination_by l _ => sizeOf l
decreasing_by
  all_goals simp only [List.cons.sizeOf_spec]
  · omega
  · have h2 := asBasic_sizeOf e b h
    omega
  · omega

end

mutual

/-- `(*Basic).GetAllData` from `src/basic.go` (a method of `Basic`; the
`leaf` / `join` arms are never taken by the claims).  Data is collected
from the cause first — through a single-`Unwrap` cause, from the first
`DataError` that `As` finds; through a join, by iterating the members as
`multi[last-i]`, i.e. from the last member down to the first, merging each
member's collection over the accumulator — and finally the node's own
non-reserved entries are overlaid by `addMyData`.  `none` models a panic
in `addMyData` (empty-string key in some data map on the way). -/
def getAllData {V : Type} : Err V → Option (KVPairs V)
  | .leaf _ => some emptyKV
  | .join _ => some emptyKV
  | .basic data cause =>
    let d0 : Option (KVPairs V) :=
      match cause with
      | none => some emptyKV
      | some c =>
        match c with
        | .basic d cc => getAllData (.basic d cc)
        | .leaf _ => some emptyKV
        | .join es => gatherJoin es
    match d0 with
    | none => none
    | some d => addMyData data d
termination_by e => sizeOf e
decreasing_by
  all_goals
    simp only [Err.basic.sizeOf_spec, Option.some.sizeOf_spec, Err.join.sizeOf_spec]
    omega

/-- The `Unwrap() []error` arm of `GetAllData`.  The Go loop visits
`multi[last-i]` for `i = 0, 1, ...`, i.e. the members from last to first,
doing `d[k] = v` for each pair of the member's collection; so here the
result for the tail (the later members, visited earlier) is computed first
and the head's collection is merged over it, the head winning. -/
def gatherJoin {V : Type} : List (Err V) → Option (KVPairs V)
  | [] => some emptyKV
  | e :: rest =>
    match gatherJoin rest with
    | none => none
    | some drest =>
      match h : asBasic e with
      | none => some drest
      | some b =>
        match getAllData b with
        | none => none
        | some t => some (mergeKV drest t)
termination_by l => sizeOf l
decreasing_by
  all_goals simp only [List.cons.sizeOf_spec]
  · omega
  · have h2 := asBasic_sizeOf e b h
    omega

end

/-- `(*Basic).StackTrace` from `src/basic.go`: the node's entry under the
full-stack key `_stack` if present (the abbreviated key `_abbrstk` is not
consulted); otherwise, when the cause implements `Unwrap() error` — among
the modelled shapes, when it is a `Basic` node — recurse into the first
`*Basic` that `As` finds there (the cause itself); `nil` in every other
case, in particular when the cause is a join (`Unwrap() []error`) or a
plain external error. -/
def stackTrace {V : Type} : Err V → Option (List Nat)
  | .basic data cause =>
    match data.stk with
    | some s => some s
    | none =>
      match cause with
      | some (.basic d cc) => stackTrace (.basic d cc)
      | _ => none
  | _ => none
termination_by e => sizeOf e
decreasing_by
  simp only [Err.basic.sizeOf_spec, Option.some.sizeOf_spec]
  omega

/-- The maximal chain of `Basic` nodes reachable from a node by single
unwrapping: the node's own data, then its cause's, as long as each cause is
itself a `Basic` node.  (Not part of the source; used to state what
`StackTrace` computes.) -/
def basicChain {V : Type} : Err V → List (NodeData V)
  | .basic data cause =>
    match cause with
    | some (.basic d cc) => data :: basicChain (.basic d cc)
    | _ => [data]
  | _ => []
termination_by e => sizeOf e
decreasing_by
  simp only [Err.basic.sizeOf_spec, Option.some.sizeOf_spec]
  omega

/-- One pass of the comparison loop of `useAbbreviatedStack`
(`src/unnamed/part_000`):

```
var i int
foundDiff := false
for i = range outer {
    if outer[lastOut-i] != inner[lastIn-i] { foundDiff = true; break }
}
```

The first argument is the number of loop iterations still to run (the loop
runs `outer.length` times in total), the second is the current value of
`i`.  Results: `none` models the index-out-of-range panic when
`lastIn - i` is negative, i.e. when `i ≥ inner.length`; `some (i, true)`
is a break at a mismatch; `some (i, false)` is normal loop completion —
note that a Go `for i = range` loop leaves `i` at the LAST index it took
(`outer.length - 1`), not at `outer.length`, and leaves `i = 0` when
`outer` is empty. -/
def stackCmpAux (outer inner : List Nat) : Nat → Nat → Option (Nat × Bool)
  | 0, i => some (i, false)
  | fuel + 1, i =>
    if i ≥ inner.length then none
    else
      if outer.getD (outer.length - 1 - i) 0 ≠ inner.getD (inner.length - 1 - i) 0 then
        some (i, true)
      else
        match fuel with
        | 0 => some (i, false)
        | _ + 1 => stackCmpAux outer inner fuel (i + 1)

/-- The full comparison loop of `useAbbreviatedStack`: run the `range`
loop over all of `outer` starting at `i = 0`. -/
def stackCmpLoop (outer inner : List Nat) : Option (Nat × Bool) :=
  stackCmpAux outer inner outer.length 0

/-- `useAbbreviatedStack` from `src/unnamed/part_000`.  `err` is the error
being wrapped, `s` the freshly captured stack (`callers(level)`); `outer`
is `s.StackTrace()` (identity in this model) and `inner` the `StackTrace()`
method result of the first stack-exposing error `As` finds in `err` (a Go
`nil` result has length 0, modelled by `[]`).  After the loop, the switch:
`i == 0` keeps the full stack; `i == 1` falls through to the `!foundDiff`
arm, truncating `i` frames off the end; otherwise `i - 1` frames are
truncated.  `none` models the panic inside the loop. -/
def useAbbreviatedStack {V : Type} (err : Err V) (s : List Nat) :
    Option (Bool × List Nat) :=
  match asBasic err with
  | none => some (false, s)
  | some b =>
    let inner := (stackTrace b).getD []
    match stackCmpLoop s inner with
    | none => none
    | some (i, foundDiff) =>
      if i = 0 then some (false, s)
      else if i = 1 then some (true, s.take (s.length - 1))
      else if foundDiff = false then some (true, s.take (s.length - i))
      else some (true, s.take (s.length - i + 1))

/-- The error argument of the wrapping constructors: Go `nil`, the internal
sentinel `errNilFlag` (used by `New` / `Errorf` to mean "no real cause but
still build a node"), or a real error. -/
inductive ErrArg (V : Type) where
  | nil
  | nilFlag
  | err (e : Err V)

/-- The cause actually stored after the `err == errNilFlag` substitution:
the sentinel becomes Go `nil`. -/
def ErrArg.toCause {V : Type} : ErrArg V → Option (Err V)
  | .nil => none
  | .nilFlag => none
  | .err e => some e

/-- `doWrap` from `src/unnamed/part_000`.  `captured` models the
`callers(level)` capture at the call site.  A Go `nil` error argument
returns `nil` (`some none`); the sentinel is replaced by a stored `nil`
cause.  The new node's data map holds the message under `_msg` and the
(possibly abbreviated) stack under `_stack` or `_abbrstk`, then `SetData`
merges the optional debug data.  The outer `none` models a panic (in
`useAbbreviatedStack` or in `SetData`). -/
def doWrap {V : Type} (arg : ErrArg V) (data : Option (KVPairs V)) (msg : String)
    (captured : List Nat) : Option (Option (Err V)) :=
  match arg with
  | .nil => some none
  | _ =>
    let cause := arg.toCause
    let uas : Option (Bool × List Nat) :=
      match cause with
      | none => some (false, captured)
      | some e => useAbbreviatedStack e captured
    match uas with
    | none => none
    | some (abbrFlag, stk) =>
      let d0 : NodeData V :=
        { msg := some msg
          stk := if abbrFlag then none else some stk
          abbrstk := if abbrFlag then some stk else none
          user := emptyKV }
      match data with
      | none => some (some (.basic d0 cause))
      | some m =>
        match setData d0 m with
        | none => none
        | some d1 => some (some (.basic d1 cause))

/-- `Wrap` from `src/unnamed/part_000`: message plus stack capture.
`formatMsg` is modelled by passing the already-formatted message. -/
def Wrap {V : Type} (arg : ErrArg V) (msg : String) (captured : List Nat) :
    Option (Option (Err V)) :=
  doWrap arg none msg captured

/-- `WrapD` from `src/unnamed/part_000`: message, debug data and stack. -/
def WrapD {V : Type} (arg : ErrArg V) (data : KVPairs V) (msg : String)
    (captured : List Nat) : Option (Option (Err V)) :=
  doWrap arg (some data) msg captured

/-- `New` from `src/unnamed/part_000`: `doWrap(1, errNilFlag, nil, msg)`. -/
def New {V : Type} (msg : String) (captured : List Nat) : Option (Option (Err V)) :=
  doWrap (V := V) .nilFlag none msg captured

/-- `WithMessageD` from `src/unnamed/part_000`: message and debug data,
no stack.  `none` models a panic inside `SetData`. -/
def WithMessageD {V : Type} (arg : ErrArg V) (data : Option (KVPairs V))
    (msg : String) : Option (Option (Err V)) :=
  match arg with
  | .nil => some none
  | _ =>
    let d0 : NodeData V :=
      { msg := some msg, stk := none, abbrstk := none, user := emptyKV }
    match data with
    | none => some (some (.basic d0 arg.toCause))
    | some m =>
      match setData d0 m with
      | none => none
      | some d1 => some (some (.basic d1 arg.toCause))

/-- `WithMessage` from `src/unnamed/part_000`: delegates to `WithMessageD`
with `nil` data. -/
def WithMessage {V : Type} (arg : ErrArg V) (msg : String) :
    Option (Option (Err V)) :=
  WithMessageD arg none msg

/-- `WithStack` from `src/unnamed/part_000`: stack only; never panics, so
the result is the returned error directly (`none` = Go `nil`). -/
def WithStack {V : Type} (arg : ErrArg V) (captured : List Nat) :
    Option (Err V) :=
  match arg with
  | .nil => none
  | _ =>
    some (.basic
      { msg := none, stk := some captured, abbrstk := none, user := emptyKV }
      arg.toCause)

/-- `WithData` from `src/unnamed/part_000`: debug data only; the node
starts with an empty data map and `SetData` fills it.  `none` models the
`SetData` panic on an empty-string key. -/
def WithData {V : Type} (arg : ErrArg V) (d : KVPairs V) :
    Option (Option (Err V)) :=
  match arg with
  | .nil => some none
  | _ =>
    match setData { msg := none, stk := none, abbrstk := none, user := emptyKV } d with
    | none => none
    | some d1 => some (some (.basic d1 arg.toCause))

/-- The loop body of `Cause` from `src/unnamed/part_000`: while
`As(err, &c)` finds a `Wrapper` (an error with `Unwrap() error` — among
the modelled shapes, a `Basic` node, possibly found inside a join) whose
`Unwrap()` is non-nil, continue from that unwrapped error; otherwise stop. -/
def causeLoop {V : Type} (err : Err V) : Err V :=
  match h : asBasic err with
  | some (.basic _ (some e)) => causeLoop e
  | _ => err
termination_by sizeOf err
decreasing_by
  have h2 := asBasic_sizeOf err _ h
  simp only [Err.basic.sizeOf_spec, Option.some.sizeOf_spec] at h2
  omega

/-- `Cause` from `src/unnamed/part_000`: `nil` yields `nil` immediately;
otherwise run the unwrapping loop. -/
def Cause {V : Type} : Option (Err V) → Option (Err V)
  | none => none
  | some e => some (causeLoop e)

/-- Length of the longest common prefix of two lists.  Applied to the
REVERSED stacks it is the spec's `i`: "the number of matching frames from
the outermost end before the first mismatch (or before either sequence is
exhausted)". -/
def commonPrefixLen : List Nat → List Nat → Nat
  | a :: as, b :: bs => if a = b then commonPrefixLen as bs + 1 else 0
  | _, _ => 0

theorem commonPrefixLen_le_left :
    ∀ (a b : List Nat), commonPrefixLen a b ≤ a.length
  | [], _ => by simp [commonPrefixLen]
  | _ :: _, [] => by simp [commonPrefixLen]
  | x :: xs, y :: ys => by
    by_cases h : x = y
    · simpa [commonPrefixLen, h] using commonPrefixLen_le_left xs ys
    · simp [commonPrefixLen, h]

theorem commonPrefixLen_le_right :
    ∀ (a b : List Nat), commonPrefixLen a b ≤ b.length
  | [], _ => by simp [commonPrefixLen]
  | _ :: _, [] => by simp [commonPrefixLen]
  | x :: xs, y :: ys => by
    by_cases h : x = y
    · simpa [commonPrefixLen, h] using commonPrefixLen_le_right xs ys
    · simp [commonPrefixLen, h]

theorem commonPrefixLen_getD :
    ∀ (a b : List Nat) (j : Nat), j < commonPrefixLen a b →
      a.getD j 0 = b.getD j 0
  | [], _, _, h => by simp [commonPrefixLen] at h
  | _ :: _, [], _, h => by simp [commonPrefixLen] at h
  | x :: xs, y :: ys, j, h => by
    by_cases hxy : x = y
    · match j with
      | 0 => simpa using hxy
      | j + 1 =>
        simp only [commonPrefixLen, if_pos hxy] at h
        simpa using commonPrefixLen_getD xs ys j (by omega)
    · simp [commonPrefixLen, hxy] at h

theorem commonPrefixLen_mismatch :
    ∀ (a b : List Nat), commonPrefixLen a b < a.length →
      commonPrefixLen a b < b.length →
      a.getD (commonPrefixLen a b) 0 ≠ b.getD (commonPrefixLen a b) 0
  | [], _, ha, _ => by simp at ha
  | _ :: _, [], _, hb => by simp at hb
  | x :: xs, y :: ys, ha, hb => by
    by_cases hxy : x = y
    · simp only [commonPrefixLen, if_pos hxy] at ha hb ⊢
      simpa using commonPrefixLen_mismatch xs ys (by simpa using ha) (by simpa using hb)
    · simp [commonPrefixLen, hxy]

theorem commonPrefixLen_ge :
    ∀ (a b : List Nat) (k : Nat), k ≤ a.length → k ≤ b.length →
      (∀ j, j < k → a.getD j 0 = b.getD j 0) → k ≤ commonPrefixLen a b := by
  intro a
  induction a with
  | nil => intro b k hk _ _; simp at hk; omega
  | cons x xs ih =>
    intro b k hka hkb hj
    match b, k with
    | _, 0 => omega
    | [], k + 1 => simp at hkb
    | y :: ys, k + 1 =>
      have hxy : x = y := by simpa using hj 0 (by omega)
      have h2 := ih ys k (by simpa using hka) (by simpa using hkb)
        (fun j hjk => by simpa using hj (j + 1) (by omega))
      simp only [commonPrefixLen, if_pos hxy]
      omega

theorem getD_reverse (l : List Nat) (j : Nat) (h : j < l.length) :
    l.reverse.getD j 0 = l.getD (l.length - 1 - j) 0 := by
  rw [List.getD_eq_getElem?_getD, List.getD_eq_getElem?_getD,
    List.getElem?_reverse h]

theorem stackCmpAux_succ (outer inner : List Nat) (fuel i : Nat) :
    stackCmpAux outer inner (fuel + 1) i =
      if i ≥ inner.length then none
      else
        if outer.getD (outer.length - 1 - i) 0 ≠ inner.getD (inner.length - 1 - i) 0 then
          some (i, true)
        else
          match fuel with
          | 0 => some (i, false)
          | _ + 1 => stackCmpAux outer inner fuel (i + 1) := by
  cases fuel <;> rfl

/-- What the Go comparison loop computes, in terms of the number `ist` of
frames the two stacks share from their outermost ends
(`commonPrefixLen` of the reversed sequences): a panic (`none`) exactly
when the inner stack is exhausted strictly before the captured one; a
break `(ist, true)` at the first mismatch; otherwise normal completion
with `i` left at `outer.length - 1` (or `0` for an empty capture). -/
theorem stackCmpAux_spec (outer inner : List Nat) (fuel : Nat) :
    ∀ i : Nat, i + fuel = outer.length →
      i ≤ commonPrefixLen outer.reverse inner.reverse →
      (fuel = 0 → i = 0) →
      stackCmpAux outer inner fuel i =
        (if commonPrefixLen outer.reverse inner.reverse = inner.length ∧
            inner.length < outer.length then none
         else if commonPrefixLen outer.reverse inner.reverse < outer.length ∧
            commonPrefixLen outer.reverse inner.reverse < inner.length then
           some (commonPrefixLen outer.reverse inner.reverse, true)
         else if outer.length = 0 then some (0, false)
         else some (outer.length - 1, false)) := by
  induction fuel with
  | zero =>
    intro i hfi hle h0
    have hi0 : i = 0 := h0 rfl
    have hn : outer.length = 0 := by omega
    have hcl : commonPrefixLen outer.reverse inner.reverse ≤ outer.length := by
      simpa using commonPrefixLen_le_left outer.reverse inner.reverse
    rw [if_neg (by omega), if_neg (by omega), if_pos hn]
    subst hi0
    rfl
  | succ f ih =>
    intro i hfi hle h0
    have hin : i < outer.length := by omega
    have hcl : commonPrefixLen outer.reverse inner.reverse ≤ outer.length := by
      simpa using commonPrefixLen_le_left outer.reverse inner.reverse
    have hcr : commonPrefixLen outer.reverse inner.reverse ≤ inner.length := by
      simpa using commonPrefixLen_le_right outer.reverse inner.reverse
    rw [stackCmpAux_succ]
    by_cases hm : i ≥ inner.length
    · -- panic: the inner index `lastIn - i` is negative
      have hieq : i = commonPrefixLen outer.reverse inner.reverse := by omega
      rw [if_pos hm, if_pos (by constructor <;> omega)]
    · rw [if_neg hm]
      push_neg at hm
      have horev : outer.reverse.getD i 0 = outer.getD (outer.length - 1 - i) 0 :=
        getD_reverse outer i hin
      have hirev : inner.reverse.getD i 0 = inner.getD (inner.length - 1 - i) 0 :=
        getD_reverse inner i hm
      by_cases hdiff :
          outer.getD (outer.length - 1 - i) 0 ≠ inner.getD (inner.length - 1 - i) 0
      · -- mismatch: the loop breaks here, and `i` is exactly the shared length
        have hieq : i = commonPrefixLen outer.reverse inner.reverse := by
          rcases Nat.lt_or_ge i (commonPrefixLen outer.reverse inner.reverse) with hlt | hge
          · exfalso
            apply hdiff
            rw [← horev, ← hirev]
            exact commonPrefixLen_getD outer.reverse inner.reverse i hlt
          · omega
        rw [if_pos hdiff, if_neg (by omega), if_pos (by constructor <;> omega), hieq]
      · rw [if_neg hdiff]
        push_neg at hdiff
        have hnext : i + 1 ≤ commonPrefixLen outer.reverse inner.reverse := by
          apply commonPrefixLen_ge outer.reverse inner.reverse (i + 1)
            (by simpa using hin) (by simpa using hm)
          intro j hj
          rcases Nat.lt_or_ge j i with hji | hji
          · exact commonPrefixLen_getD outer.reverse inner.reverse j (by omega)
          · have hji2 : j = i := by omega
            subst hji2
            rw [horev, hirev]
            exact hdiff
        cases f with
        | zero =>
          -- last iteration: the loop completes with i = outer.length - 1
          rw [if_neg (by omega), if_neg (by omega), if_neg (by omega)]
          show some (i, false) = some (outer.length - 1, false)
          have hlast : outer.length - 1 = i := by omega
          rw [hlast]
        | succ g =>
          show stackCmpAux outer inner (g + 1) (i + 1) = _
          exact ih (i + 1) (by omega) hnext (by omega)

/-! ## Claim theorems -/

/-- C7: for every node `e`, every reserved key `k` (a non-empty string
whose first byte is `'_'`), and every value `v`, `SetKeyVal(e, k, v)`
returns an error (the `Errorf` rejection with the message below) and
leaves `e`'s data mapping unchanged; only this single set call is
affected. -/
theorem setKeyVal_reserved_rejected {V : Type} (nd : NodeData V) (k : String) (v : V)
    (h : isReservedKey k = some true) :
    setKeyVal nd k v =
      some (some "cannot use a reserved key (string starting with '_')", nd) := by
  simp [setKeyVal, h]

theorem setKeyVal_reserved_rejected_witness :
    isReservedKey "_k" = some true ∧
      setKeyVal (V := Nat) ⟨none, none, none, emptyKV⟩ "_k" 5 =
        some (some "cannot use a reserved key (string starting with '_')",
          ⟨none, none, none, emptyKV⟩) :=
  ⟨by decide, setKeyVal_reserved_rejected ⟨none, none, none, emptyKV⟩ "_k" 5 (by decide)⟩

/-- C8: for every node and every reserved key (non-empty, first byte
`'_'`), `GetValue` returns not-found (`some none`, i.e. `(nil, false)`),
regardless of the node's contents — in particular for `_msg`, `_stack`
and `_abbrstk`, though the constructors store the message and stacks
under those keys. -/
theorem getValue_reserved_not_found {V : Type} (nd : NodeData V) (c : Option (Err V))
    (k : String) (h : isReservedKey k = some true) :
    getValue (.basic nd c) k = some none := by
  cases c with
  | none => simp [getValue, h]
  | some e => cases e <;> simp [getValue, h]

theorem getValue_reserved_not_found_witness :
    isReservedKey "_msg" = some true ∧
      getValue (V := Nat)
        (.basic ⟨some "boom", some [3], some [4], emptyKV⟩ (some (.leaf "x"))) "_msg" =
        some none :=
  ⟨by decide,
    getValue_reserved_not_found ⟨some "boom", some [3], some [4], emptyKV⟩
      (some (.leaf "x")) "_msg" (by decide)⟩

/-- C9: the public data operations are not total on the empty-string key:
`SetKeyVal` with key `""`, `GetValue` with key `""`, and `SetData` on a
map containing the key `""` all evaluate `key[0]` inside `isReservedKey`
on an empty string and panic (modelled by `none`) instead of returning a
result or a reserved-key error. -/
theorem empty_key_ops_panic {V : Type} (nd : NodeData V) (c : Option (Err V)) (v : V)
    (m : KVPairs V) (h : m "" = some v) :
    setKeyVal nd "" v = none ∧
      getValue (.basic nd c) "" = none ∧
      setData nd m = none := by
  refine ⟨by simp [setKeyVal, isReservedKey], ?_, by simp [setData, h]⟩
  cases c with
  | none => simp [getValue, isReservedKey]
  | some e => cases e <;> simp [getValue, isReservedKey]

theorem empty_key_ops_panic_witness :
    setKeyVal (V := Nat) ⟨none, none, none, emptyKV⟩ "" 7 = none ∧
      getValue (V := Nat) (.basic ⟨none, none, none, emptyKV⟩ none) "" = none ∧
      setData (V := Nat) ⟨none, none, none, emptyKV⟩
        (fun k => if k = "" then some 7 else none) = none :=
  empty_key_ops_panic ⟨none, none, none, emptyKV⟩ none 7
    (fun k => if k = "" then some 7 else none) (by decide)

theorem doWrap_err_ne_nil {V : Type} (e : Err V) (data : Option (KVPairs V))
    (msg : String) (cap : List Nat) : doWrap (.err e) data msg cap ≠ some none := by
  intro hc
  simp only [doWrap, ErrArg.toCause] at hc
  split at hc
  · simp at hc
  · split at hc
    · simp at hc
    · split at hc
      · simp at hc
      · simp at hc

theorem withMessageD_err_ne_nil {V : Type} (e : Err V) (data : Option (KVPairs V))
    (msg : String) : WithMessageD (.err e) data msg ≠ some none := by
  intro hc
  simp only [WithMessageD, ErrArg.toCause] at hc
  split at hc
  · simp at hc
  · split at hc
    · simp at hc
    · simp at hc

theorem withData_err_ne_nil {V : Type} (e : Err V) (d : KVPairs V) :
    WithData (.err e) d ≠ some none := by
  intro hc
  simp only [WithData, ErrArg.toCause] at hc
  split at hc
  · simp at hc
  · simp at hc

/-- C4: every wrapping constructor (`Wrap`, `WrapD`, `WithMessage`,
`WithMessageD`, `WithStack`, `WithData`) returns `nil` when its cause
argument is `nil` — in particular `Wrap(nil, m) == nil` for every message —
and never returns `nil` for a non-nil cause: whatever such a call returns
is a (non-nil) node.  (`Wrap` / `WrapD` / `WithMessageD` / `WithData` can
panic instead of returning on pathological inputs — see the C9/C10
theorems — in which case no value is returned at all; `WithMessage` with
no data and `WithStack` are total and shown to return a node outright.) -/
theorem constructors_nil_propagation {V : Type} (msg : String) (cap : List Nat)
    (d : KVPairs V) (dj : Option (KVPairs V)) :
    Wrap (V := V) .nil msg cap = some none ∧
    WrapD (V := V) .nil d msg cap = some none ∧
    WithMessage (V := V) .nil msg = some none ∧
    WithMessageD (V := V) .nil dj msg = some none ∧
    WithStack (V := V) .nil cap = none ∧
    WithData (V := V) .nil d = some none ∧
    (∀ e : Err V, Wrap (.err e) msg cap ≠ some none) ∧
    (∀ e : Err V, WrapD (.err e) d msg cap ≠ some none) ∧
    (∀ e : Err V, ∃ w, WithMessage (.err e) msg = some (some w)) ∧
    (∀ e : Err V, WithMessageD (.err e) dj msg ≠ some none) ∧
    (∀ e : Err V, ∃ w, WithStack (.err e) cap = some w) ∧
    (∀ e : Err V, WithData (.err e) d ≠ some none) := by
  refine ⟨rfl, rfl, rfl, rfl, rfl, rfl, ?_, ?_, ?_, ?_, ?_, ?_⟩
  · exact fun e => doWrap_err_ne_nil e none msg cap
  · exact fun e => doWrap_err_ne_nil e (some d) msg cap
  · intro e
    exact ⟨_, rfl⟩
  · exact fun e => withMessageD_err_ne_nil e dj msg
  · intro e
    exact ⟨_, rfl⟩
  · exact fun e => withData_err_ne_nil e d

mutual

theorem asBasic_shape {V : Type} (e b : Err V) (h : asBasic e = some b) :
    ∃ nd c, b = .basic nd c := by
  match e with
  | .leaf m => simp [asBasic] at h
  | .basic d c =>
    simp [asBasic] at h
    exact ⟨d, c, h.symm⟩
  | .join es =>
    exact asBasicList_shape es b (by simpa [asBasic] using h)

theorem asBasicList_shape {V : Type} (l : List (Err V)) (b : Err V)
    (h : asBasicList l = some b) : ∃ nd c, b = .basic nd c := by
  match l with
  | [] => simp [asBasicList] at h
  | e :: rest =>
    rw [asBasicList] at h
    cases h2 : asBasic e with
    | some b2 =>
      rw [h2] at h
      cases h
      exact asBasic_shape e b h2
    | none =>
      rw [h2] at h
      exact asBasicList_shape rest b h

end

theorem causeLoop_of_none {V : Type} (e : Err V) (h : asBasic e = none) :
    causeLoop e = e := by
  rw [causeLoop.eq_def, h]

theorem causeLoop_of_basic_none {V : Type} (e : Err V) (nd : NodeData V)
    (h : asBasic e = some (.basic nd none)) : causeLoop e = e := by
  rw [causeLoop.eq_def, h]

theorem causeLoop_of_basic_some {V : Type} (e c : Err V) (nd : NodeData V)
    (h : asBasic e = some (.basic nd (some c))) : causeLoop e = causeLoop c := by
  rw [causeLoop.eq_def, h]

/-- Where the `Cause` loop stops is always terminal: either no error in its
tree implements `Unwrap() error` at all, or the `Wrapper` that `As` finds
has a `nil` cause. -/
theorem causeLoop_terminal {V : Type} (e : Err V) :
    asBasic (causeLoop e) = none ∨
      ∃ nd, asBasic (causeLoop e) = some (.basic nd none) := by
  cases h : asBasic e with
  | none =>
    rw [causeLoop_of_none e h]
    exact Or.inl h
  | some b =>
    obtain ⟨nd, c, rfl⟩ := asBasic_shape e b h
    cases c with
    | none =>
      rw [causeLoop_of_basic_none e nd h]
      exact Or.inr ⟨nd, h⟩
    | some c2 =>
      rw [causeLoop_of_basic_some e c2 nd h]
      exact causeLoop_terminal c2
termination_by sizeOf e
decreasing_by
  have h2 := asBasic_sizeOf e _ h
  simp only [Err.basic.sizeOf_spec, Option.some.sizeOf_spec] at h2
  omega

theorem doWrap_err_success_shape {V : Type} (e : Err V) (data : Option (KVPairs V))
    (msg : String) (cap : List Nat) (w : Err V)
    (h : doWrap (.err e) data msg cap = some (some w)) :
    ∃ nd, w = .basic nd (some e) := by
  simp only [doWrap, ErrArg.toCause] at h
  split at h
  · simp at h
  · split at h
    · simp at h
      exact ⟨_, h.symm⟩
    · split at h
      · simp at h
      · simp at h
        exact ⟨_, h.symm⟩

/-- C5: `Cause(nil)` is `nil` without inspection; the loop repeatedly
unwraps while `As` finds a `Wrapper` whose `Unwrap()` is non-nil and stops
at a terminal error (one whose tree has no `Wrapper`, or whose found
`Wrapper` unwraps to `nil`); consequently, for every non-nil cause `c` and
message `m`, `Cause(Wrap(c, m))` unwinds to the same terminal value as
`Cause(c)`. -/
theorem Cause_unwinds {V : Type} :
    Cause (V := V) none = none ∧
    (∀ (c : Err V) (msg : String) (cap : List Nat) (w : Err V),
      Wrap (.err c) msg cap = some (some w) → Cause (some w) = Cause (some c)) ∧
    (∀ e : Err V, asBasic (causeLoop e) = none ∨
      ∃ nd, asBasic (causeLoop e) = some (.basic nd none)) := by
  refine ⟨rfl, ?_, causeLoop_terminal⟩
  intro c msg cap w h
  obtain ⟨nd, rfl⟩ := doWrap_err_success_shape c none msg cap w h
  show some (causeLoop (.basic nd (some c))) = some (causeLoop c)
  rw [causeLoop_of_basic_some (.basic nd (some c)) c nd rfl]

theorem Cause_unwinds_witness :
    Cause (V := Nat)
        (some (.basic ⟨some "w", some [1], none, emptyKV⟩ (some (.leaf "x")))) =
      Cause (some (.leaf "x")) :=
  (Cause_unwinds (V := Nat)).2.1 (.leaf "x") "w" [1]
    (.basic ⟨some "w", some [1], none, emptyKV⟩ (some (.leaf "x")))
    (by simp [Wrap, doWrap, useAbbreviatedStack, asBasic, ErrArg.toCause])

theorem addMyData_apply_k {V : Type} (nd : NodeData V) (d : KVPairs V) (k : String)
    (h0 : nd.user "" = none) :
    ∃ m, addMyData nd d = some m ∧
      m k = (match nd.user k with
             | some v => if isReservedKey k = some false then some v else d k
             | none => d k) :=
  ⟨_, by rw [addMyData, if_neg (by simp [h0])], rfl⟩

theorem getAllData_basic_none {V : Type} (nd : NodeData V) :
    getAllData (.basic nd none) = addMyData nd emptyKV := by
  simp [getAllData]

theorem getAllData_basic_basic {V : Type} (d1 d2 : NodeData V) (c2 : Option (Err V)) :
    getAllData (.basic d1 (some (.basic d2 c2))) =
      (getAllData (.basic d2 c2)).bind (addMyData d1) := by
  cases h : getAllData (.basic d2 c2) with
  | none => simp [getAllData, h]
  | some m => simp [getAllData, h]

theorem getAllData_basic_join {V : Type} (d1 : NodeData V) (es : List (Err V)) :
    getAllData (.basic d1 (some (.join es))) = (gatherJoin es).bind (addMyData d1) := by
  cases h : gatherJoin es with
  | none => simp [getAllData, h]
  | some m => simp [getAllData, h]

theorem gatherJoin_nil {V : Type} : gatherJoin ([] : List (Err V)) = some emptyKV := by
  simp [gatherJoin]

theorem gatherJoin_cons_basic {V : Type} (nd : NodeData V) (c : Option (Err V))
    (rest : List (Err V)) :
    gatherJoin (.basic nd c :: rest) =
      (gatherJoin rest).bind (fun drest =>
        (getAllData (.basic nd c)).bind (fun t => some (mergeKV drest t))) := by
  cases h1 : gatherJoin rest with
  | none => simp [gatherJoin, h1]
  | some dr =>
    cases h2 : getAllData (.basic nd c) with
    | none => simp [gatherJoin, h1, asBasic, h2]
    | some t => simp [gatherJoin, h1, asBasic, h2]

/-- C6: with node A wrapping node B wrapping node C, each carrying key `k`,
`GetAllData()` on A maps `k` to A's own value — collection proceeds from
the deepest cause first and every shallower node's own data overwrites
inherited values on key collision.  (The `user "" = none` premises rule
out the empty-key panic of C9.) -/
theorem getAllData_shallowest_wins {V : Type} (dA dB dC : NodeData V) (k : String)
    (va : V) (hA : dA.user "" = none) (hB : dB.user "" = none) (hC : dC.user "" = none)
    (hk : isReservedKey k = some false) (hva : dA.user k = some va) :
    ((getAllData (.basic dA (some (.basic dB (some (.basic dC none)))))).bind
        (fun m => m k)) = some va := by
  obtain ⟨mC, hmC, _⟩ := addMyData_apply_k dC emptyKV k hC
  obtain ⟨mB, hmB, _⟩ := addMyData_apply_k dB mC k hB
  obtain ⟨mA, hmA, hmAk⟩ := addMyData_apply_k dA mB k hA
  rw [getAllData_basic_basic, getAllData_basic_basic, getAllData_basic_none, hmC,
    Option.some_bind, hmB, Option.some_bind, hmA, Option.some_bind, hmAk, hva]
  simp [hk]

theorem getAllData_shallowest_wins_witness :
    ((getAllData (V := Nat)
        (.basic ⟨none, none, none, fun k => if k = "k" then some 10 else none⟩
          (some (.basic ⟨none, none, none, fun k => if k = "k" then some 20 else none⟩
            (some (.basic ⟨none, none, none, fun k => if k = "k" then some 30 else none⟩
              none)))))).bind (fun m => m "k")) = some 10 :=
  getAllData_shallowest_wins
    ⟨none, none, none, fun k => if k = "k" then some 10 else none⟩
    ⟨none, none, none, fun k => if k = "k" then some 20 else none⟩
    ⟨none, none, none, fun k => if k = "k" then some 30 else none⟩
    "k" 10 (by decide) (by decide) (by decide) (by decide) (by decide)

/-- C1 counterexample: `GetAllData` on `Wrap(Join(X, Y), "m")` where X sets
`"k" = 1` and Y sets `"k" = 2` returns X's value 1 for `"k"` — NOT Y's
value 2 as the claim states.  (The join members are iterated as
`multi[last-i]`, last to first, so the first member's entries are written
last and win.)  The capture `[]` keeps the stack-merge heuristic out of
the picture. -/
theorem getAllData_join_claim_counterexample :
    (((Wrap (V := Nat)
          (.err (.join
            [.basic ⟨none, none, none, fun k => if k = "k" then some 1 else none⟩ none,
             .basic ⟨none, none, none, fun k => if k = "k" then some 2 else none⟩ none]))
          "m" []).bind id).bind getAllData).bind (fun m => m "k") = some 1 ∧
    (((Wrap (V := Nat)
          (.err (.join
            [.basic ⟨none, none, none, fun k => if k = "k" then some 1 else none⟩ none,
             .basic ⟨none, none, none, fun k => if k = "k" then some 2 else none⟩ none]))
          "m" []).bind id).bind getAllData).bind (fun m => m "k") ≠ some 2 := by
  constructor
  · simp [Wrap, doWrap, useAbbreviatedStack, asBasic, asBasicList, stackTrace,
      stackCmpLoop, stackCmpAux, ErrArg.toCause, getAllData, gatherJoin, addMyData,
      mergeKV, emptyKV, isReservedKey]
  · simp [Wrap, doWrap, useAbbreviatedStack, asBasic, asBasicList, stackTrace,
      stackCmpLoop, stackCmpAux, ErrArg.toCause, getAllData, gatherJoin, addMyData,
      mergeKV, emptyKV, isReservedKey]

/-- C1 amended: for `GetAllData` on a node wrapping `Join(X, Y)`, the
joined branches' collections are merged from the LAST member to the FIRST
(`multi[last-i]`), so among joined siblings the EARLIER-indexed sibling's
value wins for a shared key; the wrapping node's own keys still win over
everything inherited.  Concretely, when X and Y both set `k`, the result
maps `k` to the wrapper's own value if it sets `k`, and to X's value
otherwise. -/
theorem getAllData_join_earlier_sibling_wins {V : Type} (dW dX dY : NodeData V)
    (k : String) (vx vy : V)
    (hW : dW.user "" = none) (hX : dX.user "" = none) (hY : dY.user "" = none)
    (hk : isReservedKey k = some false)
    (hvx : dX.user k = some vx) (hvy : dY.user k = some vy) :
    ((getAllData (.basic dW (some (.join [.basic dX none, .basic dY none])))).bind
        (fun m => m k)) = some ((dW.user k).getD vx) := by
  obtain ⟨mY, hmY, hmYk⟩ := addMyData_apply_k dY emptyKV k hY
  obtain ⟨mX, hmX, hmXk⟩ := addMyData_apply_k dX emptyKV k hX
  have hgY : getAllData (.basic dY none) = some mY := by
    rw [getAllData_basic_none, hmY]
  have hgX : getAllData (.basic dX none) = some mX := by
    rw [getAllData_basic_none, hmX]
  have hJ : gatherJoin [.basic dX none, .basic dY none] =
      some (mergeKV (mergeKV emptyKV mY) mX) := by
    rw [gatherJoin_cons_basic, gatherJoin_cons_basic, gatherJoin_nil,
      Option.some_bind, hgY, Option.some_bind, Option.some_bind, hgX,
      Option.some_bind]
  have hmXk2 : mX k = some vx := by
    rw [hmXk, hvx]
    simp [hk]
  obtain ⟨mF, hmF, hmFk⟩ :=
    addMyData_apply_k dW (mergeKV (mergeKV emptyKV mY) mX) k hW
  rw [getAllData_basic_join, hJ, Option.some_bind, hmF, Option.some_bind, hmFk]
  cases hWk : dW.user k with
  | some vw => simp [hk]
  | none => simp [mergeKV, hmXk2]

theorem getAllData_join_earlier_sibling_wins_witness :
    ((getAllData (V := Nat)
        (.basic ⟨some "m", none, none, emptyKV⟩
          (some (.join
            [.basic ⟨none, none, none, fun k => if k = "k" then some 1 else none⟩ none,
             .basic ⟨none, none, none, fun k => if k = "k" then some 2 else none⟩
               none])))).bind (fun m => m "k")) = some 1 := by
  have h := getAllData_join_earlier_sibling_wins (V := Nat)
    ⟨some "m", none, none, emptyKV⟩
    ⟨none, none, none, fun k => if k = "k" then some 1 else none⟩
    ⟨none, none, none, fun k => if k = "k" then some 2 else none⟩
    "k" 1 2 (by decide) (by decide) (by decide) (by decide) (by decide) (by decide)
  simpa [emptyKV] using h

/-- C3 counterexample, two parts.  (1) `Wrap` on a node that already
carries the stack `[5, 6]`, with new capture `[9, 6]`, stores the
abbreviated stack `[9]` as the new node's own stack (under `_abbrstk`),
yet `StackTrace()` on the result returns the inner `[5, 6]`, not the
node's own stored stack — contradicting "returns the node's own stored
stack if present".  (2) A node with no stack whose cause is a join
containing a member that carries stack `[7]` yields `StackTrace() = none`
— contradicting "returns nothing only when no node in the chain carries a
stack", since the chain (which in Go includes joined members) does carry
one. -/
theorem stackTrace_claim_counterexample :
    (((Wrap (V := Nat) (.err (.basic ⟨none, some [5, 6], none, emptyKV⟩ none))
        "w" [9, 6]).bind id).bind stackTrace) = some [5, 6] ∧
    (((Wrap (V := Nat) (.err (.basic ⟨none, some [5, 6], none, emptyKV⟩ none))
        "w" [9, 6]).bind id).bind (fun w =>
          match w with
          | .basic d _ => d.abbrstk
          | _ => none)) = some [9] ∧
    stackTrace (V := Nat)
      (.basic ⟨none, none, none, emptyKV⟩
        (some (.join [.basic ⟨none, some [7], none, emptyKV⟩ none]))) = none := by
  refine ⟨?_, ?_, by simp [stackTrace]⟩
  · simp [Wrap, doWrap, useAbbreviatedStack, asBasic, stackTrace, stackCmpLoop,
      stackCmpAux, ErrArg.toCause]
  · simp [Wrap, doWrap, useAbbreviatedStack, asBasic, stackTrace, stackCmpLoop,
      stackCmpAux, ErrArg.toCause]

/-- C3 amended: `StackTrace()` returns the first stack stored under the
FULL-stack key (`_stack`) along the single-unwrap chain of `Basic` nodes:
the node's own full stack if present, else its `Basic` cause's, and so on.
Stacks stored under the abbreviated key are ignored, and the search stops
at a non-`Basic` cause — in particular at a fan-in join — so it returns
nothing exactly when no node on that single-unwrap chain stores a full
stack (even if a joined member deeper in the tree carries one). -/
theorem stackTrace_first_full_stack {V : Type} (e : Err V) :
    stackTrace e = (basicChain e).findSome? (fun d => d.stk) := by
  match e with
  | .leaf m => simp [stackTrace, basicChain]
  | .join es => simp [stackTrace, basicChain]
  | .basic d none =>
    cases h : d.stk <;> simp [stackTrace, basicChain, List.findSome?, h]
  | .basic d (some (.leaf m)) =>
    cases h : d.stk <;> simp [stackTrace, basicChain, List.findSome?, h]
  | .basic d (some (.join es)) =>
    cases h : d.stk <;> simp [stackTrace, basicChain, List.findSome?, h]
  | .basic d (some (.basic d2 c2)) =>
    have ih := stackTrace_first_full_stack (.basic d2 c2)
    cases h : d.stk with
    | some s => simp [stackTrace, basicChain, List.findSome?, h]
    | none =>
      rw [show stackTrace (.basic d (some (.basic d2 c2))) =
            stackTrace (.basic d2 c2) by simp [stackTrace, h]]
      rw [show basicChain (.basic d (some (.basic d2 c2))) =
            d :: basicChain (.basic d2 c2) by simp [basicChain]]
      rw [ih]
      simp [List.findSome?, h]
termination_by sizeOf e
decreasing_by
  simp only [Err.basic.sizeOf_spec, Option.some.sizeOf_spec]
  omega

/-- C2 counterexample: with the inner stack equal to the new capture, the
claim's decision table ("identical over the full overlapping length ⇒
store the capture with its last `i` frames dropped", `i` = number of
matching frames) predicts an abbreviated empty stack for captures `[10]`
and `[10, 20]`.  The code instead leaves `i` at `len(outer)-1` after a
completed `range` loop, so it stores the FULL one-frame stack for `[10]`
(not even abbreviated) and the one-frame abbreviation `[10]` for
`[10, 20]`. -/
theorem useAbbreviatedStack_claim_counterexample :
    useAbbreviatedStack (V := Nat) (.basic ⟨none, some [10], none, emptyKV⟩ none)
        [10] = some (false, [10]) ∧
    useAbbreviatedStack (V := Nat) (.basic ⟨none, some [10], none, emptyKV⟩ none)
        [10] ≠ some (true, []) ∧
    useAbbreviatedStack (V := Nat) (.basic ⟨none, some [10, 20], none, emptyKV⟩ none)
        [10, 20] = some (true, [10]) ∧
    useAbbreviatedStack (V := Nat) (.basic ⟨none, some [10, 20], none, emptyKV⟩ none)
        [10, 20] ≠ some (true, []) := by
  refine ⟨?_, ?_, ?_, ?_⟩ <;>
    simp [useAbbreviatedStack, asBasic, stackTrace, stackCmpLoop, stackCmpAux]

/-- C2 amended: let `ist` be the number of frames matching from the two
outermost ends (of the new capture `s` and the inner stack `inner` exposed
by the wrapped error) before the first mismatch or before either sequence
is exhausted.  When a mismatch is found (`ist < length` of both): `ist = 0`
stores the full capture; `ist = 1` stores an abbreviation dropping the
last frame; `ist ≥ 2` stores an abbreviation dropping the last `ist - 1`
frames.  When the sequences are identical over the capture's whole length
(`ist = s.length ≤ inner.length`) the Go `range` loop leaves its counter
at `s.length - 1`, so the code stores the FULL capture when it has at most
one frame, and otherwise an abbreviation keeping only the first frame
(dropping `s.length - 1` frames) — not, as the claim stated, an
abbreviation dropping all `ist` shared frames.  (The remaining case
`ist = inner.length < s.length` panics; see the C10 theorem.) -/
theorem useAbbreviatedStack_decision_table {V : Type} (err b : Err V)
    (s inner : List Nat) (hb : asBasic err = some b)
    (hin : inner = (stackTrace b).getD []) :
    (commonPrefixLen s.reverse inner.reverse < s.length ∧
        commonPrefixLen s.reverse inner.reverse < inner.length ∧
        commonPrefixLen s.reverse inner.reverse = 0 →
      useAbbreviatedStack err s = some (false, s)) ∧
    (commonPrefixLen s.reverse inner.reverse < s.length ∧
        commonPrefixLen s.reverse inner.reverse < inner.length ∧
        commonPrefixLen s.reverse inner.reverse = 1 →
      useAbbreviatedStack err s = some (true, s.take (s.length - 1))) ∧
    (commonPrefixLen s.reverse inner.reverse < s.length ∧
        commonPrefixLen s.reverse inner.reverse < inner.length ∧
        2 ≤ commonPrefixLen s.reverse inner.reverse →
      useAbbreviatedStack err s =
        some (true,
          s.take (s.length - commonPrefixLen s.reverse inner.reverse + 1))) ∧
    (commonPrefixLen s.reverse inner.reverse = s.length ∧
        s.length ≤ inner.length ∧ s.length ≤ 1 →
      useAbbreviatedStack err s = some (false, s)) ∧
    (commonPrefixLen s.reverse inner.reverse = s.length ∧
        s.length ≤ inner.length ∧ 2 ≤ s.length →
      useAbbreviatedStack err s = some (true, s.take 1)) := by
  have hloop := stackCmpAux_spec s inner s.length 0 (by omega)
    (Nat.zero_le _) (fun _ => rfl)
  have hu : useAbbreviatedStack err s =
      match stackCmpAux s inner s.length 0 with
      | none => none
      | some (i, foundDiff) =>
        if i = 0 then some (false, s)
        else if i = 1 then some (true, s.take (s.length - 1))
        else if foundDiff = false then some (true, s.take (s.length - i))
        else some (true, s.take (s.length - i + 1)) := by
    simp only [useAbbreviatedStack, hb, ← hin, stackCmpLoop]
  refine ⟨?_, ?_, ?_, ?_, ?_⟩
  · rintro ⟨h1, h2, h3⟩
    rw [if_neg (by omega), if_pos (by omega)] at hloop
    rw [hu, hloop, h3]
    simp
  · rintro ⟨h1, h2, h3⟩
    rw [if_neg (by omega), if_pos (by omega)] at hloop
    rw [hu, hloop, h3]
    simp
  · rintro ⟨h1, h2, h3⟩
    rw [if_neg (by omega), if_pos (by omega)] at hloop
    rw [hu, hloop]
    have hne0 : ¬(commonPrefixLen s.reverse inner.reverse = 0) := by omega
    have hne1 : ¬(commonPrefixLen s.reverse inner.reverse = 1) := by omega
    simp [hne0, hne1]
  · rintro ⟨h1, h2, h3⟩
    rw [if_neg (by omega), if_neg (by omega)] at hloop
    rcases Nat.eq_zero_or_pos s.length with hn | hn
    · rw [if_pos hn] at hloop
      rw [hu, hloop]
      simp
    · have hn1 : s.length - 1 = 0 := by omega
      rw [if_neg (by omega), hn1] at hloop
      rw [hu, hloop]
      simp
  · rintro ⟨h1, h2, h3⟩
    rw [if_neg (by omega), if_neg (by omega), if_neg (by omega)] at hloop
    rw [hu, hloop]
    rcases Nat.lt_or_ge s.length 3 with hn | hn
    · have hn2 : s.length - 1 = 1 := by omega
      rw [hn2]
      simp
    · have hne0 : ¬(s.length - 1 = 0) := by omega
      have hne1 : ¬(s.length - 1 = 1) := by omega
      have htake : s.length - (s.length - 1) = 1 := by omega
      simp [hne0, hne1, htake]

theorem useAbbreviatedStack_decision_table_witness :
    useAbbreviatedStack (V := Nat)
        (.basic ⟨none, some [1, 2, 3, 4], none, emptyKV⟩ none) [9, 2, 3, 4] =
      some (true, [9, 2]) := by
  have h := (useAbbreviatedStack_decision_table (V := Nat)
    (.basic ⟨none, some [1, 2, 3, 4], none, emptyKV⟩ none)
    (.basic ⟨none, some [1, 2, 3, 4], none, emptyKV⟩ none)
    [9, 2, 3, 4] [1, 2, 3, 4] rfl
    (by simp [stackTrace])).2.2.1 (by refine ⟨?_, ?_, ?_⟩ <;> decide)
  simpa [show commonPrefixLen [4, 3, 2, 9] [4, 3, 2, 1] = 3 from by decide]
    using h

/-- C10: in `doWrap`, when the wrapped error exposes (via `As` and the
`StackTrace()` method) a stack strictly shorter than the new capture and
the two sequences match frame for frame over the inner stack's entire
length (from the outermost ends), the comparison loop reads
`inner[lastIn-i]` with `i > lastIn` — a negative index — and panics:
`useAbbreviatedStack` and the whole `doWrap` produce a panic (`none`)
instead of a wrapped node. -/
theorem useAbbreviatedStack_short_inner_panics {V : Type} (err b : Err V)
    (innerS s : List Nat) (hb : asBasic err = some b)
    (hst : stackTrace b = some innerS) (hlen : innerS.length < s.length)
    (hmatch : ∀ j, j < innerS.length →
      s.reverse.getD j 0 = innerS.reverse.getD j 0) :
    useAbbreviatedStack err s = none ∧
      ∀ (data : Option (KVPairs V)) (msg : String),
        doWrap (.err err) data msg s = none := by
  have hist_ge : innerS.length ≤ commonPrefixLen s.reverse innerS.reverse :=
    commonPrefixLen_ge s.reverse innerS.reverse innerS.length
      (by simp; omega) (by simp) hmatch
  have hist_le := commonPrefixLen_le_right s.reverse innerS.reverse
  have hist : commonPrefixLen s.reverse innerS.reverse = innerS.length := by
    simp only [List.length_reverse] at hist_le
    omega
  have hloop := stackCmpAux_spec s innerS s.length 0 (by omega)
    (Nat.zero_le _) (fun _ => rfl)
  rw [if_pos ⟨hist, hlen⟩] at hloop
  have hnone : useAbbreviatedStack err s = none := by
    simp only [useAbbreviatedStack, hb, hst, Option.getD_some, stackCmpLoop, hloop]
  refine ⟨hnone, fun data msg => ?_⟩
  simp only [doWrap, ErrArg.toCause, hnone]

theorem useAbbreviatedStack_short_inner_panics_witness :
    useAbbreviatedStack (V := Nat) (.basic ⟨none, some [20], none, emptyKV⟩ none)
        [10, 20] = none ∧
      doWrap (V := Nat) (.err (.basic ⟨none, some [20], none, emptyKV⟩ none))
        none "m" [10, 20] = none := by
  have h := useAbbreviatedStack_short_inner_panics (V := Nat)
    (.basic ⟨none, some [20], none, emptyKV⟩ none)
    (.basic ⟨none, some [20], none, emptyKV⟩ none)
    [20] [10, 20] rfl (by simp [stackTrace]) (by decide) (by decide)
  exact ⟨h.1, h.2 none "m"⟩

end LibErrors
